import Mathlib

/-!
Shallow embedding of the deterministic budget allocator and the LLM
recommendation pipeline of the ai-personal-budget-optimizer repository.

JavaScript numbers are modelled as exact rationals; JavaScript strings as
Lean strings (braces appearing in source strings are written with hex
escapes).  Stateful React code is out of scope: the computational core of
the form-submission handler is embedded as a pure function from the parsed
form values to the result record it stores.
-/

namespace BudgetOpt

/-- `ExpenseItem` from the form schema of src/components/budget-optimizer.tsx:
a category together with a monthly amount. -/
structure ExpenseItem where
  category : String
  amount : ℚ
  deriving Repr, DecidableEq

/-- `GoalItem` from the form schema: a category and a target percentage of
income. -/
structure GoalItem where
  category : String
  target_percent : ℚ
  deriving Repr, DecidableEq

/-- The parsed form values handed to `onSubmit`. -/
structure FormValues where
  income : ℚ
  fixedExpenses : List ExpenseItem
  goals : List GoalItem
  deriving Repr, DecidableEq

/-- An allocation entry as pushed by `onSubmit`: category, dollar amount and
percent of income. -/
structure Allocation where
  category : String
  amount : ℚ
  percent : ℚ
  deriving Repr, DecidableEq

/-- The object stored by `setBudgetResults` in `onSubmit`.  The three call
sites set different subsets of the optional fields, so those are `Option`
valued; fields set on every path are plain. -/
structure BudgetCalcResult where
  success : Bool
  message : String
  income : ℚ
  totalFixedExpenses : ℚ
  remainingIncome : ℚ
  allocations : List Allocation
  fixedExpenses : List ExpenseItem
  goalAllocations : Option (List Allocation)
  totalGoalAmount : Option ℚ
  totalGoalPercent : Option ℚ
  discretionaryAmount : Option ℚ
  discretionaryPercent : Option ℚ
  deriving Repr, DecidableEq

/-- Message of the expenses-exceed-income branch of `onSubmit`. -/
def msgExpensesExceed : String :=
  "Your fixed expenses exceed your income. Please adjust your expenses or increase your income."

/-- Message of the goals-not-achievable branch of `onSubmit`. -/
def msgGoalsExceed : String :=
  "Your financial goals cannot be met with your current income and fixed expenses."

/-- Message of the success branch of `onSubmit`. -/
def msgFeasible : String := "Here\x27s your optimized budget plan:"

/-- The `forEach` loop of `onSubmit` over `data.goals`: it pushes one
allocation per goal onto `goalAllocations` and accumulates
`totalGoalPercent` and `totalGoalAmount`.  Embedded as a left fold over the
triple of accumulated state. -/
def goalLoop (income : ℚ) (goals : List GoalItem) :
    List Allocation × ℚ × ℚ :=
  goals.foldl
    (fun acc goal =>
      let amount := goal.target_percent / 100 * income
      (acc.1 ++ [⟨goal.category, amount, goal.target_percent⟩],
       acc.2.1 + goal.target_percent,
       acc.2.2 + amount))
    ([], 0, 0)

/-- The computational core of `onSubmit` in
src/components/budget-optimizer.tsx (lines 83-165): compute the totals,
branch on infeasibility, and build the result record that the handler
stores via `setBudgetResults`. -/
def onSubmitCalc (data : FormValues) : BudgetCalcResult :=
  let totalFixedExpenses :=
    data.fixedExpenses.foldl (fun sum expense => sum + expense.amount) 0
  let remainingIncome := data.income - totalFixedExpenses
  if remainingIncome < 0 then
    { success := false
      message := msgExpensesExceed
      income := data.income
      totalFixedExpenses := totalFixedExpenses
      remainingIncome := 0
      allocations := []
      fixedExpenses := data.fixedExpenses
      goalAllocations := none
      totalGoalAmount := none
      totalGoalPercent := none
      discretionaryAmount := none
      discretionaryPercent := none }
  else
    let st := goalLoop data.income data.goals
    let goalAllocations := st.1
    let totalGoalPercent := st.2.1
    let totalGoalAmount := st.2.2
    if totalGoalAmount > remainingIncome then
      { success := false
        message := msgGoalsExceed
        income := data.income
        totalFixedExpenses := totalFixedExpenses
        remainingIncome := remainingIncome
        allocations := []
        fixedExpenses := data.fixedExpenses
        goalAllocations := some goalAllocations
        totalGoalAmount := some totalGoalAmount
        totalGoalPercent := some totalGoalPercent
        discretionaryAmount := none
        discretionaryPercent := none }
    else
      let discretionaryAmount := remainingIncome - totalGoalAmount
      let discretionaryPercent := discretionaryAmount / data.income * 100
      let allocations :=
        goalAllocations ++
          [⟨"Discretionary Spending", discretionaryAmount, discretionaryPercent⟩]
      { success := true
        message := msgFeasible
        income := data.income
        totalFixedExpenses := totalFixedExpenses
        remainingIncome := remainingIncome
        allocations := allocations
        fixedExpenses := data.fixedExpenses
        goalAllocations := none
        totalGoalAmount := some totalGoalAmount
        totalGoalPercent := some totalGoalPercent
        discretionaryAmount := some discretionaryAmount
        discretionaryPercent := some discretionaryPercent }

/-- Total of the fixed-expense amounts, as `onSubmit` computes it. -/
def totalFixed (data : FormValues) : ℚ :=
  data.fixedExpenses.foldl (fun sum expense => sum + expense.amount) 0

/-- Total goal amount, `sum (targetPercent / 100 * income)`. -/
def totalGoalAmt (data : FormValues) : ℚ :=
  (data.goals.map (fun g => g.target_percent / 100 * data.income)).sum

/-- Total goal percentage, `sum targetPercent`. -/
def totalGoalPct (data : FormValues) : ℚ :=
  (data.goals.map (fun g => g.target_percent)).sum

/-- The allocation entry `onSubmit` pushes for one goal. -/
def goalAlloc (income : ℚ) (g : GoalItem) : Allocation :=
  ⟨g.category, g.target_percent / 100 * income, g.target_percent⟩

lemma goalLoop_aux (income : ℚ) (goals : List GoalItem)
    (acc : List Allocation × ℚ × ℚ) :
    goals.foldl
      (fun acc goal =>
        let amount := goal.target_percent / 100 * income
        (acc.1 ++ [⟨goal.category, amount, goal.target_percent⟩],
         acc.2.1 + goal.target_percent,
         acc.2.2 + amount))
      acc =
    (acc.1 ++ goals.map (goalAlloc income),
     acc.2.1 + (goals.map (fun g => g.target_percent)).sum,
     acc.2.2 + (goals.map (fun g => g.target_percent / 100 * income)).sum) := by
  induction goals generalizing acc with
  | nil => simp
  | cons g gs ih =>
    simp only [List.foldl_cons, List.map_cons, List.sum_cons, ih, goalAlloc]
    refine Prod.ext ?_ (Prod.ext ?_ ?_) <;> simp <;> ring

lemma goalLoop_spec (income : ℚ) (goals : List GoalItem) :
    goalLoop income goals =
      (goals.map (goalAlloc income),
       (goals.map (fun g => g.target_percent)).sum,
       (goals.map (fun g => g.target_percent / 100 * income)).sum) := by
  unfold goalLoop
  rw [goalLoop_aux]
  simp

/-- Shape of the result on the feasible branch. -/
lemma onSubmitCalc_feasible (data : FormValues)
    (h1 : totalFixed data ≤ data.income)
    (h2 : totalGoalAmt data ≤ data.income - totalFixed data) :
    onSubmitCalc data =
      { success := true
        message := msgFeasible
        income := data.income
        totalFixedExpenses := totalFixed data
        remainingIncome := data.income - totalFixed data
        allocations :=
          data.goals.map (goalAlloc data.income) ++
            [⟨"Discretionary Spending",
              data.income - totalFixed data - totalGoalAmt data,
              (data.income - totalFixed data - totalGoalAmt data) / data.income * 100⟩]
        fixedExpenses := data.fixedExpenses
        goalAllocations := none
        totalGoalAmount := some (totalGoalAmt data)
        totalGoalPercent := some (totalGoalPct data)
        discretionaryAmount := some (data.income - totalFixed data - totalGoalAmt data)
        discretionaryPercent :=
          some ((data.income - totalFixed data - totalGoalAmt data) / data.income * 100) } := by
  have hc1 : ¬ (data.income - totalFixed data < 0) := by linarith
  have hc2 : ¬ (totalGoalAmt data > data.income - totalFixed data) := by linarith
  simp only [onSubmitCalc, goalLoop_spec]
  have e1 : data.fixedExpenses.foldl (fun sum expense => sum + expense.amount) 0
      = totalFixed data := rfl
  have e2 : (data.goals.map (fun g => g.target_percent / 100 * data.income)).sum
      = totalGoalAmt data := rfl
  have e3 : (data.goals.map (fun g => g.target_percent)).sum
      = totalGoalPct data := rfl
  rw [e1, e2, e3, if_neg hc1, if_neg hc2]

/-- Shape of the result on the goals-exceed-remaining branch. -/
lemma onSubmitCalc_goalsExceed (data : FormValues)
    (h1 : totalFixed data ≤ data.income)
    (h2 : data.income - totalFixed data < totalGoalAmt data) :
    onSubmitCalc data =
      { success := false
        message := msgGoalsExceed
        income := data.income
        totalFixedExpenses := totalFixed data
        remainingIncome := data.income - totalFixed data
        allocations := []
        fixedExpenses := data.fixedExpenses
        goalAllocations := some (data.goals.map (goalAlloc data.income))
        totalGoalAmount := some (totalGoalAmt data)
        totalGoalPercent := some (totalGoalPct data)
        discretionaryAmount := none
        discretionaryPercent := none } := by
  have hc1 : ¬ (data.income - totalFixed data < 0) := by linarith
  have hc2 : totalGoalAmt data > data.income - totalFixed data := h2
  simp only [onSubmitCalc, goalLoop_spec]
  have e1 : data.fixedExpenses.foldl (fun sum expense => sum + expense.amount) 0
      = totalFixed data := rfl
  have e2 : (data.goals.map (fun g => g.target_percent / 100 * data.income)).sum
      = totalGoalAmt data := rfl
  have e3 : (data.goals.map (fun g => g.target_percent)).sum
      = totalGoalPct data := rfl
  rw [e1, e2, e3, if_neg hc1, if_pos hc2]

/-- Shape of the result on the expenses-exceed-income branch. -/
lemma onSubmitCalc_expensesExceed (data : FormValues)
    (h : data.income < totalFixed data) :
    onSubmitCalc data =
      { success := false
        message := msgExpensesExceed
        income := data.income
        totalFixedExpenses := totalFixed data
        remainingIncome := 0
        allocations := []
        fixedExpenses := data.fixedExpenses
        goalAllocations := none
        totalGoalAmount := none
        totalGoalPercent := none
        discretionaryAmount := none
        discretionaryPercent := none } := by
  have hc : data.income - totalFixed data < 0 := by linarith
  simp only [onSubmitCalc]
  have e1 : data.fixedExpenses.foldl (fun sum expense => sum + expense.amount) 0
      = totalFixed data := rfl
  rw [e1, if_pos hc]

lemma sum_map_amount_goalAlloc (income : ℚ) (goals : List GoalItem) :
    ((goals.map (goalAlloc income)).map Allocation.amount).sum =
      (goals.map (fun g => g.target_percent / 100 * income)).sum := by
  simp [goalAlloc, List.map_map, Function.comp_def]

/-- C1: for every feasible input (`totalFixedExpenses <= income` and
`totalGoalAmount <= remainingIncome`) the allocator returns a feasible
result whose allocation amounts sum to `remainingIncome`, whose last
allocation is the synthesized "Discretionary Spending" entry, and whose
`discretionaryAmount` is `remainingIncome - totalGoalAmount`, which is
nonnegative. -/
theorem allocator_feasible_invariants (data : FormValues)
    (h1 : totalFixed data ≤ data.income)
    (h2 : totalGoalAmt data ≤ data.income - totalFixed data) :
    (onSubmitCalc data).success = true ∧
    ((onSubmitCalc data).allocations.map Allocation.amount).sum
      = (onSubmitCalc data).remainingIncome ∧
    ((onSubmitCalc data).allocations.getLast?).map Allocation.category
      = some "Discretionary Spending" ∧
    (onSubmitCalc data).discretionaryAmount
      = some ((onSubmitCalc data).remainingIncome - totalGoalAmt data) ∧
    (0:ℚ) ≤ (onSubmitCalc data).remainingIncome - totalGoalAmt data := by
  rw [onSubmitCalc_feasible data h1 h2]
  refine ⟨rfl, ?_, ?_, rfl, by simp only []; linarith⟩
  · simp only [List.map_append, List.sum_append, sum_map_amount_goalAlloc,
      List.map_cons, List.map_nil, List.sum_cons, List.sum_nil, totalGoalAmt]
    ring
  · simp [List.getLast?_concat]

/-- Concrete input for the C1 witness (Scenario A of the spec). -/
def sampleA : FormValues :=
  ⟨5000,
   [⟨"Rent", 1200⟩, ⟨"Utilities", 200⟩, ⟨"Internet", 80⟩, ⟨"Phone", 50⟩],
   [⟨"Emergency Fund", 15⟩, ⟨"Retirement", 10⟩, ⟨"Entertainment", 8⟩]⟩

/-- Witness for C1 at Scenario A. -/
theorem allocator_feasible_invariants_witness :
    (totalFixed sampleA ≤ sampleA.income ∧
     totalGoalAmt sampleA ≤ sampleA.income - totalFixed sampleA) ∧
    ((onSubmitCalc sampleA).success = true ∧
     ((onSubmitCalc sampleA).allocations.map Allocation.amount).sum
       = (onSubmitCalc sampleA).remainingIncome ∧
     ((onSubmitCalc sampleA).allocations.getLast?).map Allocation.category
       = some "Discretionary Spending" ∧
     (onSubmitCalc sampleA).discretionaryAmount
       = some ((onSubmitCalc sampleA).remainingIncome - totalGoalAmt sampleA) ∧
     (0:ℚ) ≤ (onSubmitCalc sampleA).remainingIncome - totalGoalAmt sampleA) :=
  ⟨⟨by norm_num [totalFixed, sampleA],
    by norm_num [totalGoalAmt, totalFixed, sampleA]⟩,
   allocator_feasible_invariants sampleA
     (by norm_num [totalFixed, sampleA])
     (by norm_num [totalGoalAmt, totalFixed, sampleA])⟩

/-- C2: whenever the fixed expenses exceed the income, the allocator
returns the expenses-exceed-income failure, reporting `remainingIncome`
as 0 and an empty allocation list. -/
theorem allocator_expensesExceed_result (data : FormValues)
    (h : data.income < totalFixed data) :
    (onSubmitCalc data).success = false ∧
    (onSubmitCalc data).message = msgExpensesExceed ∧
    (onSubmitCalc data).remainingIncome = 0 ∧
    (onSubmitCalc data).allocations = [] := by
  rw [onSubmitCalc_expensesExceed data h]
  exact ⟨rfl, rfl, rfl, rfl⟩

/-- Concrete input for the C2 witness (Scenario C of the spec). -/
def sampleC : FormValues :=
  ⟨1000, [⟨"Rent", 1500⟩], [⟨"Savings", 10⟩]⟩

/-- Witness for C2 at Scenario C. -/
theorem allocator_expensesExceed_result_witness :
    sampleC.income < totalFixed sampleC ∧
    ((onSubmitCalc sampleC).success = false ∧
     (onSubmitCalc sampleC).message = msgExpensesExceed ∧
     (onSubmitCalc sampleC).remainingIncome = 0 ∧
     (onSubmitCalc sampleC).allocations = []) :=
  ⟨by norm_num [totalFixed, sampleC],
   allocator_expensesExceed_result sampleC (by norm_num [totalFixed, sampleC])⟩

/-- Concrete input on which claim C3 fails as stated: the goal total
exceeds the (negative) remaining income, yet the allocator reports the
expenses-exceed-income failure, not the goals-exceed-remaining one. -/
def cexC3 : FormValues := ⟨100, [⟨"Rent", 200⟩], [⟨"Savings", 50⟩]⟩

/-- Counterexample to C3 as stated: at `cexC3` the hypothesis of the claim
holds (`totalGoalAmount > remainingIncome`), but the result is the
expenses-exceed-income outcome and carries no goal totals at all. -/
theorem allocator_goalsExceed_claim_cex :
    cexC3.income - totalFixed cexC3 < totalGoalAmt cexC3 ∧
    (onSubmitCalc cexC3).message = msgExpensesExceed ∧
    msgExpensesExceed ≠ msgGoalsExceed ∧
    (onSubmitCalc cexC3).goalAllocations = none ∧
    (onSubmitCalc cexC3).totalGoalAmount = none := by
  refine ⟨by norm_num [totalFixed, totalGoalAmt, cexC3], ?_, by decide, ?_, ?_⟩ <;>
    norm_num [onSubmitCalc, goalLoop, cexC3]

/-- C3 (amended): provided the fixed expenses fit within the income, an
input whose goal total exceeds the remaining income yields the
goals-exceed-remaining failure, carrying the computed per-goal
allocations and the goal totals, with a positive shortfall. -/
theorem allocator_goalsExceed_result (data : FormValues)
    (h1 : totalFixed data ≤ data.income)
    (h2 : data.income - totalFixed data < totalGoalAmt data) :
    (onSubmitCalc data).success = false ∧
    (onSubmitCalc data).message = msgGoalsExceed ∧
    (onSubmitCalc data).goalAllocations
      = some (data.goals.map (goalAlloc data.income)) ∧
    (onSubmitCalc data).totalGoalAmount = some (totalGoalAmt data) ∧
    (onSubmitCalc data).totalGoalPercent = some (totalGoalPct data) ∧
    0 < totalGoalAmt data - (data.income - totalFixed data) := by
  rw [onSubmitCalc_goalsExceed data h1 h2]
  exact ⟨rfl, rfl, rfl, rfl, rfl, by linarith⟩

/-- Concrete input for the C3 witness (Scenario B of the spec). -/
def sampleB : FormValues :=
  ⟨3000, [⟨"Rent", 2900⟩], [⟨"Savings", 30⟩]⟩

/-- Witness for the amended C3 at Scenario B. -/
theorem allocator_goalsExceed_result_witness :
    (totalFixed sampleB ≤ sampleB.income ∧
     sampleB.income - totalFixed sampleB < totalGoalAmt sampleB) ∧
    ((onSubmitCalc sampleB).success = false ∧
     (onSubmitCalc sampleB).message = msgGoalsExceed ∧
     (onSubmitCalc sampleB).goalAllocations
       = some (sampleB.goals.map (goalAlloc sampleB.income)) ∧
     (onSubmitCalc sampleB).totalGoalAmount = some (totalGoalAmt sampleB) ∧
     (onSubmitCalc sampleB).totalGoalPercent = some (totalGoalPct sampleB) ∧
     0 < totalGoalAmt sampleB - (sampleB.income - totalFixed sampleB)) :=
  ⟨⟨by norm_num [totalFixed, sampleB],
    by norm_num [totalFixed, totalGoalAmt, sampleB]⟩,
   allocator_goalsExceed_result sampleB
     (by norm_num [totalFixed, sampleB])
     (by norm_num [totalFixed, totalGoalAmt, sampleB])⟩

/-- C6: every allocation the allocator produces, both the per-goal entries
and the synthesized discretionary entry, has `percent` equal to
`amount / income * 100` (exactly, in rational arithmetic). -/
theorem allocation_percent_recomputed (data : FormValues)
    (h : 0 < data.income) :
    ∀ a ∈ (onSubmitCalc data).allocations ++
        ((onSubmitCalc data).goalAllocations.getD []),
      a.percent = a.amount / data.income * 100 := by
  have hinc : data.income ≠ 0 := ne_of_gt h
  by_cases h1 : data.income < totalFixed data
  · rw [onSubmitCalc_expensesExceed data h1]
    simp
  · push_neg at h1
    by_cases h2 : data.income - totalFixed data < totalGoalAmt data
    · rw [onSubmitCalc_goalsExceed data h1 h2]
      intro a ha
      simp only [List.nil_append, Option.getD_some, List.mem_map] at ha
      obtain ⟨g, _, rfl⟩ := ha
      simp only [goalAlloc]
      field_simp
      ring
    · push_neg at h2
      rw [onSubmitCalc_feasible data h1 h2]
      intro a ha
      simp only [Option.getD_none, List.append_nil, List.mem_append,
        List.mem_map, List.mem_singleton] at ha
      rcases ha with ⟨g, _, rfl⟩ | rfl
      · simp only [goalAlloc]
        field_simp
        ring
      · rfl

/-- Witness for C6 at Scenario A. -/
theorem allocation_percent_recomputed_witness :
    (0:ℚ) < sampleA.income ∧
    ∀ a ∈ (onSubmitCalc sampleA).allocations ++
        ((onSubmitCalc sampleA).goalAllocations.getD []),
      a.percent = a.amount / sampleA.income * 100 :=
  ⟨by norm_num [sampleA],
   allocation_percent_recomputed sampleA (by norm_num [sampleA])⟩

/-- C8: edge-case policy of the allocator.  With an empty goal list and
fixed expenses within income, the goal total is 0 and the whole remaining
income becomes the single discretionary allocation; and a goal with
`targetPercent = 0` yields a zero-amount allocation entry at its position
in the feasible result (it is not filtered out). -/
theorem allocator_edge_cases :
    (∀ data : FormValues, data.goals = [] → totalFixed data ≤ data.income →
      (onSubmitCalc data).success = true ∧
      (onSubmitCalc data).totalGoalAmount = some 0 ∧
      (onSubmitCalc data).allocations =
        [⟨"Discretionary Spending", data.income - totalFixed data,
          (data.income - totalFixed data) / data.income * 100⟩]) ∧
    (∀ (data : FormValues) (k : ℕ) (hk : k < data.goals.length),
      totalFixed data ≤ data.income →
      totalGoalAmt data ≤ data.income - totalFixed data →
      (data.goals.get ⟨k, hk⟩).target_percent = 0 →
      (onSubmitCalc data).allocations.get? k =
        some ⟨(data.goals.get ⟨k, hk⟩).category, 0, 0⟩) := by
  constructor
  · intro data hg hfe
    have hga : totalGoalAmt data = 0 := by simp [totalGoalAmt, hg]
    have h2 : totalGoalAmt data ≤ data.income - totalFixed data := by
      rw [hga]; linarith
    rw [onSubmitCalc_feasible data hfe h2]
    refine ⟨rfl, by rw [hga], ?_⟩
    simp [hg, totalGoalAmt]
  · intro data k hk hfe h2 hzero
    rw [onSubmitCalc_feasible data hfe h2]
    have hlen : k < (data.goals.map (goalAlloc data.income)).length := by
      simpa using hk
    rw [List.get?_append hlen, List.get?_map,
      List.get?_eq_get hk]
    simp only [List.get_eq_getElem] at hzero
    simp [goalAlloc, hzero]

/-- Concrete empty-goal input for the C8 witness. -/
def sampleE : FormValues := ⟨2000, [⟨"Rent", 500⟩], []⟩

/-- Concrete zero-percent-goal input for the C8 witness. -/
def sampleZ : FormValues := ⟨1000, [], [⟨"Zero Goal", 0⟩]⟩

/-- Witness for C8 at the two concrete edge-case inputs. -/
theorem allocator_edge_cases_witness :
    ((onSubmitCalc sampleE).success = true ∧
     (onSubmitCalc sampleE).totalGoalAmount = some 0 ∧
     (onSubmitCalc sampleE).allocations =
       [⟨"Discretionary Spending", sampleE.income - totalFixed sampleE,
         (sampleE.income - totalFixed sampleE) / sampleE.income * 100⟩]) ∧
    (onSubmitCalc sampleZ).allocations.get? 0 = some ⟨"Zero Goal", 0, 0⟩ :=
  ⟨allocator_edge_cases.1 sampleE rfl (by norm_num [totalFixed, sampleE]),
   by
    have h := allocator_edge_cases.2 sampleZ 0 (by norm_num [sampleZ])
      (by norm_num [totalFixed, sampleZ])
      (by norm_num [totalFixed, totalGoalAmt, sampleZ])
      (by norm_num [sampleZ])
    simpa [sampleZ] using h⟩

end BudgetOpt


namespace BudgetOpt

/-- The left-brace character, written numerically. -/
def lbrace : Char := Char.ofNat 123

/-- The right-brace character, written numerically. -/
def rbrace : Char := Char.ofNat 125

/-- The backtick character, written numerically. -/
def btick : Char := Char.ofNat 96

/-- JavaScript `String.prototype.trim`, on the character list. -/
def trimChars (l : List Char) : List Char :=
  ((l.dropWhile Char.isWhitespace).reverse.dropWhile Char.isWhitespace).reverse

/-- Does the list start with a case-insensitive "```json" fence marker? -/
def fenceJsonAt (l : List Char) : Bool :=
  match l with
  | c1 :: c2 :: c3 :: c4 :: c5 :: c6 :: c7 :: _ =>
    c1 == btick && c2 == btick && c3 == btick &&
    (c4 == 'j' || c4 == 'J') && (c5 == 's' || c5 == 'S') &&
    (c6 == 'o' || c6 == 'O') && (c7 == 'n' || c7 == 'N')
  | _ => false

/-- Does the list start with a "```" fence marker? -/
def fenceAt (l : List Char) : Bool :=
  match l with
  | c1 :: c2 :: c3 :: _ => c1 == btick && c2 == btick && c3 == btick
  | _ => false

/-- Global replacement of the pattern "```json" followed by whitespace by the
empty string, scanning left to right, as the first `replace` call of
`cleanAndValidateJSON` does.  The fuel argument (initially the list length)
bounds the recursion; every step consumes at least one character, so the
fuel never runs out on the initial call. -/
def stripJsonFenceF : ℕ → List Char → List Char
  | 0, l => l
  | _ + 1, [] => []
  | fuel + 1, c :: rest =>
    if fenceJsonAt (c :: rest) then
      stripJsonFenceF fuel (((c :: rest).drop 7).dropWhile Char.isWhitespace)
    else
      c :: stripJsonFenceF fuel rest

/-- Removal of every "```json" fence (with trailing whitespace). -/
def stripJsonFence (l : List Char) : List Char := stripJsonFenceF l.length l

/-- Global replacement of "```" followed by whitespace by the empty string,
as the second `replace` call does. -/
def stripFenceF : ℕ → List Char → List Char
  | 0, l => l
  | _ + 1, [] => []
  | fuel + 1, c :: rest =>
    if fenceAt (c :: rest) then
      stripFenceF fuel (((c :: rest).drop 3).dropWhile Char.isWhitespace)
    else
      c :: stripFenceF fuel rest

/-- Removal of every "```" fence (with trailing whitespace). -/
def stripFence (l : List Char) : List Char := stripFenceF l.length l

/-- JavaScript `indexOf` of a character: index of its first occurrence. -/
def firstIdx (c : Char) : List Char → Option ℕ
  | [] => none
  | x :: xs => if x = c then some 0 else (firstIdx c xs).map (· + 1)

/-- JavaScript `lastIndexOf` of a character: index of its last occurrence. -/
def lastIdx (c : Char) : List Char → Option ℕ
  | [] => none
  | x :: xs =>
    match lastIdx c xs with
    | some i => some (i + 1)
    | none => if x = c then some 0 else none

/-- The "remove any text before the first brace" step: `indexOf` followed by
`substring(jsonStart)` when the index is positive (the source skips the
step when `indexOf` returns 0 or -1). -/
def dropToFirstLbrace (l : List Char) : List Char :=
  match firstIdx lbrace l with
  | some i => if 0 < i then l.drop i else l
  | none => l

/-- The "remove any text after the last brace" step: `lastIndexOf` followed
by `substring(0, jsonEnd + 1)` when the index exists and is not already the
final position. -/
def truncAfterLastRbrace (l : List Char) : List Char :=
  match lastIdx rbrace l with
  | some j => if j < l.length - 1 then l.take (j + 1) else l
  | none => l

/-- The brace-extraction tail of `cleanAndValidateJSON`. -/
def extractJsonSpan (l : List Char) : List Char :=
  truncAfterLastRbrace (dropToFirstLbrace l)

/-- `cleanAndValidateJSON` from src/lib/groq-prompts.ts: trim, strip the
markdown code-fence markers, then keep the span from the first left brace
to the last right brace. -/
def cleanAndValidateJSON (s : String) : String :=
  ⟨extractJsonSpan (stripFence (stripJsonFence (trimChars s.data)))⟩

lemma firstIdx_getElem (c : Char) :
    ∀ (l : List Char) (i : ℕ), firstIdx c l = some i → l[i]? = some c
  | [], i, h => by simp [firstIdx] at h
  | x :: xs, i, h => by
    by_cases hx : x = c
    · simp only [firstIdx, if_pos hx, Option.some.injEq] at h
      subst h
      simp [hx]
    · simp only [firstIdx, if_neg hx, Option.map_eq_some'] at h
      obtain ⟨i', hi', rfl⟩ := h
      simpa using firstIdx_getElem c xs i' hi'

lemma firstIdx_le (c : Char) :
    ∀ (l : List Char) (i k : ℕ),
      firstIdx c l = some i → l[k]? = some c → i ≤ k
  | [], i, k, h, _ => by simp [firstIdx] at h
  | x :: xs, i, k, h, hk => by
    by_cases hx : x = c
    · simp only [firstIdx, if_pos hx, Option.some.injEq] at h
      omega
    · simp only [firstIdx, if_neg hx, Option.map_eq_some'] at h
      obtain ⟨i', hi', rfl⟩ := h
      cases k with
      | zero =>
        simp only [List.getElem?_cons_zero, Option.some.injEq] at hk
        exact absurd hk hx
      | succ k' =>
        simp only [List.getElem?_cons_succ] at hk
        have := firstIdx_le c xs i' k' hi' hk
        omega

lemma firstIdx_none_spec (c : Char) :
    ∀ (l : List Char) (k : ℕ), firstIdx c l = none → l[k]? ≠ some c
  | [], k, _ => by simp
  | x :: xs, k, h => by
    by_cases hx : x = c
    · simp [firstIdx, if_pos hx] at h
    · simp only [firstIdx, if_neg hx, Option.map_eq_none'] at h
      cases k with
      | zero => simp [hx]
      | succ k' => simpa using firstIdx_none_spec c xs k' h

lemma lastIdx_getElem (c : Char) :
    ∀ (l : List Char) (j : ℕ), lastIdx c l = some j → l[j]? = some c
  | [], j, h => by simp [lastIdx] at h
  | x :: xs, j, h => by
    cases hrec : lastIdx c xs with
    | some i =>
      simp only [lastIdx, hrec, Option.some.injEq] at h
      subst h
      simpa using lastIdx_getElem c xs i hrec
    | none =>
      simp only [lastIdx, hrec] at h
      by_cases hx : x = c
      · simp only [if_pos hx, Option.some.injEq] at h
        subst h
        simp [hx]
      · simp [if_neg hx] at h

lemma lastIdx_none_spec (c : Char) :
    ∀ (l : List Char) (k : ℕ), lastIdx c l = none → l[k]? ≠ some c
  | [], k, _ => by simp
  | x :: xs, k, h => by
    cases hrec : lastIdx c xs with
    | some i => simp [lastIdx, hrec] at h
    | none =>
      simp only [lastIdx, hrec] at h
      by_cases hx : x = c
      · simp [if_pos hx] at h
      · cases k with
        | zero => simp [hx]
        | succ k' => simpa using lastIdx_none_spec c xs k' hrec

/-- C7: whenever the string left after trimming and fence removal contains
a left brace at some position followed by a right brace at a later
position, the cleaned output starts with a left brace and ends with a
right brace. -/
theorem clean_json_brace_span (s : String)
    (h : ∃ i j : ℕ, i < j ∧
      (stripFence (stripJsonFence (trimChars s.data)))[i]? = some lbrace ∧
      (stripFence (stripJsonFence (trimChars s.data)))[j]? = some rbrace) :
    (cleanAndValidateJSON s).data.head? = some lbrace ∧
    (cleanAndValidateJSON s).data.getLast? = some rbrace := by
  obtain ⟨i, j, hij, hi, hj⟩ := h
  set l := stripFence (stripJsonFence (trimChars s.data)) with hl
  have hclean : (cleanAndValidateJSON s).data = extractJsonSpan l := rfl
  obtain ⟨i0, hfi⟩ : ∃ i0, firstIdx lbrace l = some i0 := by
    cases hfi0 : firstIdx lbrace l with
    | some i0 => exact ⟨i0, rfl⟩
    | none => exact absurd hi (firstIdx_none_spec lbrace l i hfi0)
  have hi0get : l[i0]? = some lbrace := firstIdx_getElem lbrace l i0 hfi
  have hi0le : i0 ≤ i := firstIdx_le lbrace l i0 i hfi hi
  have hd : dropToFirstLbrace l = l.drop i0 := by
    unfold dropToFirstLbrace
    rw [hfi]
    by_cases hpos : 0 < i0
    · simp [hpos]
    · have h0 : i0 = 0 := by omega
      simp [h0]
  set l1 := l.drop i0 with hl1
  have hl1head : l1[0]? = some lbrace := by
    rw [hl1, List.getElem?_drop]
    simpa using hi0get
  have hl1j : l1[j - i0]? = some rbrace := by
    rw [hl1, List.getElem?_drop]
    have hji : i0 + (j - i0) = j := by omega
    rw [hji]
    exact hj
  obtain ⟨j0, hlj⟩ : ∃ j0, lastIdx rbrace l1 = some j0 := by
    cases hlj0 : lastIdx rbrace l1 with
    | some j0 => exact ⟨j0, rfl⟩
    | none => exact absurd hl1j (lastIdx_none_spec rbrace l1 (j - i0) hlj0)
  have hj0get : l1[j0]? = some rbrace := lastIdx_getElem rbrace l1 j0 hlj
  have hj0lt : j0 < l1.length := by
    rw [List.getElem?_eq_some] at hj0get
    exact hj0get.1
  have ht : truncAfterLastRbrace l1 = l1.take (j0 + 1) := by
    unfold truncAfterLastRbrace
    rw [hlj]
    by_cases hlt : j0 < l1.length - 1
    · simp [hlt]
    · have hj1 : j0 + 1 = l1.length := by omega
      simp [hlt, hj1]
  have hres : extractJsonSpan l = l1.take (j0 + 1) := by
    unfold extractJsonSpan
    rw [hd]
    exact ht
  rw [hclean, hres]
  constructor
  · rw [List.head?_eq_getElem?, List.getElem?_take_of_lt (by omega : 0 < j0 + 1)]
    exact hl1head
  · rw [List.getLast?_eq_getElem?]
    have hlen : (l1.take (j0 + 1)).length = j0 + 1 := by
      rw [List.length_take]
      omega
    rw [hlen, Nat.add_sub_cancel, List.getElem?_take_of_lt (by omega : j0 < j0 + 1)]
    exact hj0get

/-- Concrete input for the C7 witness. -/
def sampleClean : String := "x\x7by\x7dz"

/-- Witness for C7 at a concrete string containing a brace pair. -/
theorem clean_json_brace_span_witness :
    ((stripFence (stripJsonFence (trimChars sampleClean.data)))[1]? = some lbrace ∧
     (stripFence (stripJsonFence (trimChars sampleClean.data)))[3]? = some rbrace) ∧
    ((cleanAndValidateJSON sampleClean).data.head? = some lbrace ∧
     (cleanAndValidateJSON sampleClean).data.getLast? = some rbrace) :=
  ⟨⟨by decide, by decide⟩,
   clean_json_brace_span sampleClean ⟨1, 3, by omega, by decide, by decide⟩⟩

end BudgetOpt

namespace BudgetOpt

/-- JSON values as produced by `JSON.parse` (no `undefined`, no functions). -/
inductive Json where
  | null
  | bool (b : Bool)
  | num (q : ℚ)
  | str (s : String)
  | arr (elems : List Json)
  | obj (fields : List (String × Json))

/-- JavaScript truthiness of a parsed JSON value. -/
def truthy : Json → Bool
  | .null => false
  | .bool b => b
  | .num q => q != 0
  | .str s => s != ""
  | .arr _ => true
  | .obj _ => true

/-- JavaScript `typeof x === "object"` for a parsed JSON value (`null` and
arrays both satisfy it). -/
def typeofObject : Json → Bool
  | .null => true
  | .arr _ => true
  | .obj _ => true
  | _ => false

/-- JavaScript property access `x[key]` on a parsed JSON value: a field of
an object, `undefined` (here `none`) otherwise. -/
def getField : Json → String → Option Json
  | .obj fields, key => fields.lookup key
  | _, _ => none

/-- `Array.isArray` applied to a possibly-undefined property value. -/
def isArrayProp (o : Option Json) : Bool :=
  match o with
  | some (.arr _) => true
  | _ => false

/-- `typeof x === "string"` applied to a possibly-undefined property value. -/
def isStringProp (o : Option Json) : Bool :=
  match o with
  | some (.str _) => true
  | _ => false

/-- `validateAIRecommendation` from src/lib/groq-prompts.ts: the value is
truthy, is an object, its `budgetPlan`, `insights` and `warnings`
properties are arrays and its `summary` property is a string.  Nothing
inside the arrays is inspected. -/
def validateAIRecommendation (obj : Json) : Bool :=
  truthy obj && typeofObject obj &&
  isArrayProp (getField obj "budgetPlan") &&
  isArrayProp (getField obj "insights") &&
  isArrayProp (getField obj "warnings") &&
  isStringProp (getField obj "summary")

/-- One entry of `AIRecommendation.budgetPlan`. -/
structure PlanEntry where
  category : String
  amount : ℚ
  percent : ℚ
  reasoning : String
  deriving Repr, DecidableEq

/-- The typed `AIRecommendation` shape, as built by the fallback
synthesizer (whose `insights` and `warnings` really are strings). -/
structure AIRecommendation where
  budgetPlan : List PlanEntry
  insights : List String
  warnings : List String
  summary : String
  deriving Repr, DecidableEq

/-- What `getAIBudgetRecommendations` actually returns: `budgetPlan`
entries are coerced to the typed shape, while `insights` and `warnings`
are passed along exactly as parsed (their elements are whatever JSON
values the model produced), and `summary` is a string by validation. -/
structure AIRecommendationDyn where
  budgetPlan : List PlanEntry
  insights : List Json
  warnings : List Json
  summary : String

/-- Concatenation of rendered array elements with commas, as JavaScript
array-to-string conversion does. -/
def joinComma (l : List String) : String := String.intercalate "," l

/-- Rendering of a JavaScript number as a string.  No claim depends on the
exact decimal format, so the rational is rendered by its reduced
numerator/denominator representation. -/
def ratToString (q : ℚ) : String := toString q

mutual

/-- JavaScript `String(v)` on a parsed JSON value. -/
def jsToString : Json → String
  | .null => "null"
  | .bool true => "true"
  | .bool false => "false"
  | .num q => ratToString q
  | .str s => s
  | .arr xs => joinComma (jsToStringList xs)
  | .obj _ => "[object Object]"

/-- `String` conversion of each element of an array. -/
def jsToStringList : List Json → List String
  | [] => []
  | x :: xs => jsToString x :: jsToStringList xs

end

/-- Digit run to natural number. -/
def digitsToNat (l : List Char) : ℕ :=
  l.foldl (fun acc c => 10 * acc + (c.toNat - 48)) 0

/-- Value of a fractional digit run. -/
def fracVal (l : List Char) : ℚ :=
  (digitsToNat l : ℚ) / (10 ^ l.length)

/-- Parse an unsigned decimal literal (integer part, optional point and
fraction).  Exponent and hexadecimal forms of the JavaScript grammar are
not modelled; no claim depends on them. -/
def parseUnsignedDec (l : List Char) : Option ℚ :=
  let ip := l.takeWhile Char.isDigit
  let rest := l.dropWhile Char.isDigit
  match rest with
  | [] => if ip.isEmpty then none else some (digitsToNat ip)
  | c :: fp =>
    if c = '.' ∧ fp.all Char.isDigit ∧ (ip ≠ [] ∨ fp ≠ []) then
      some ((digitsToNat ip : ℚ) + fracVal fp)
    else
      none

/-- JavaScript `Number(s)` on a string: empty/whitespace gives 0, a signed
decimal literal gives its value, anything else gives NaN (`none`). -/
def jsStrToNumber (s : String) : Option ℚ :=
  let l := trimChars s.data
  match l with
  | [] => some 0
  | '-' :: rest => (parseUnsignedDec rest).map (fun q => -q)
  | '+' :: rest => parseUnsignedDec rest
  | _ => parseUnsignedDec l

/-- JavaScript `Number(v)` on a parsed JSON value; `none` models NaN. -/
def jsToNumber : Json → Option ℚ
  | .null => some 0
  | .bool b => some (if b then 1 else 0)
  | .num q => some q
  | .str s => jsStrToNumber s
  | .arr xs => jsStrToNumber (joinComma (jsToStringList xs))
  | .obj _ => none

/-- `String(v || dflt)`: the string conversion of the property when it is
present and truthy, the default otherwise. -/
def jsOrString (o : Option Json) (dflt : String) : String :=
  match o with
  | some v => if truthy v then jsToString v else dflt
  | none => dflt

/-- `Number(v) || 0`: the numeric conversion of the property, with NaN (and
absent values) replaced by 0. -/
def jsOrNumber (o : Option Json) : ℚ :=
  match o with
  | some v =>
    match jsToNumber v with
    | some q => q
    | none => 0
  | none => 0

/-- JavaScript property read `v[key]` including its failure mode: reading a
property of `null` throws a TypeError (whose engine message is modelled by
a fixed string); on any other parsed JSON value it yields the property or
`undefined` (`none`). -/
def jsGetProp (v : Json) (key : String) : Except String (Option Json) :=
  match v with
  | .null => .error ("Cannot read properties of null (reading " ++ key ++ ")")
  | .obj fields => .ok (fields.lookup key)
  | _ => .ok none

/-- The per-entry coercion `getAIBudgetRecommendations` applies to each
`budgetPlan` item: `String(item.category || "Miscellaneous")`,
`Number(item.amount) || 0`, `Number(item.percent) || 0`,
`String(item.reasoning || "Budget allocation")`.  The four property reads
happen in the order of the object literal, and on a `null` item the first
one throws. -/
def coerceBudgetItem (item : Json) : Except String PlanEntry :=
  match jsGetProp item "category" with
  | .error e => .error e
  | .ok categoryProp =>
    match jsGetProp item "amount" with
    | .error e => .error e
    | .ok amountProp =>
      match jsGetProp item "percent" with
      | .error e => .error e
      | .ok percentProp =>
        match jsGetProp item "reasoning" with
        | .error e => .error e
        | .ok reasoningProp =>
          .ok { category := jsOrString categoryProp "Miscellaneous"
                amount := jsOrNumber amountProp
                percent := jsOrNumber percentProp
                reasoning := jsOrString reasoningProp "Budget allocation" }

/-- `budgetPlan.map(item => ...)` with the coercion of each item: the map
runs left to right and the first thrown TypeError aborts it. -/
def coercePlan : List Json → Except String (List PlanEntry)
  | [] => .ok []
  | item :: rest =>
    match coerceBudgetItem item with
    | .error e => .error e
    | .ok p =>
      match coercePlan rest with
      | .error e => .error e
      | .ok ps => .ok (p :: ps)

/-- The array behind a property known to be an array (after validation). -/
def arrProp (j : Json) (key : String) : List Json :=
  match getField j key with
  | some (.arr xs) => xs
  | _ => []

/-- The string behind a property known to be a string (after validation). -/
def strProp (j : Json) (key : String) : String :=
  match getField j key with
  | some (.str s) => s
  | _ => ""

end BudgetOpt

namespace BudgetOpt

/-- `BudgetData` from src/lib/groq-prompts.ts; `remainingIncome` and
`totalFixedExpenses` are optional fields. -/
structure BudgetData where
  income : ℚ
  fixedExpenses : List ExpenseItem
  goals : List GoalItem
  remainingIncome : Option ℚ
  totalFixedExpenses : Option ℚ
  deriving Repr, DecidableEq

/-- JavaScript `toFixed(2)`: round to two decimals (ties toward the larger
value) and render with exactly two fraction digits. -/
def toFixed2 (q : ℚ) : String :=
  let n : ℤ := ⌊q * 100 + 1 / 2⌋
  let sign := if n < 0 then "-" else ""
  let a := n.natAbs
  sign ++ toString (a / 100) ++ "." ++
    (if a % 100 < 10 then "0" else "") ++ toString (a % 100)

/-- `createFallbackRecommendation` from src/lib/groq-prompts.ts: recompute
the remaining income from the income and the expense amounts, then build
the deterministic two-entry (or empty) plan, the fixed insights, the
warnings and the summary. -/
def createFallbackRecommendation (budgetData : BudgetData)
    (error : Option String) : AIRecommendation :=
  let totalFixedExpenses :=
    budgetData.fixedExpenses.foldl (fun sum expense => sum + expense.amount) 0
  let remainingIncome := budgetData.income - totalFixedExpenses
  { budgetPlan :=
      if remainingIncome > 0 then
        [{ category := "Emergency Savings"
           amount := remainingIncome * 0.2
           percent := remainingIncome * 0.2 / budgetData.income * 100
           reasoning := "Build emergency fund first" },
         { category := "Discretionary"
           amount := remainingIncome * 0.8
           percent := remainingIncome * 0.8 / budgetData.income * 100
           reasoning := "Flexible spending allocation" }]
      else []
    insights :=
      ["AI analysis temporarily unavailable",
       "Available after fixed expenses: $" ++ toFixed2 remainingIncome,
       if remainingIncome > 0 then "Focus on building an emergency fund"
       else "Consider reducing expenses"]
    warnings :=
      [match error with
       | some e => if e = "" then "AI service temporarily unavailable" else e
       | none => "AI service temporarily unavailable"] ++
      (if remainingIncome < 0 then ["Income insufficient to cover fixed expenses"]
       else [])
    summary :=
      if remainingIncome < 0 then "Budget shows deficit - immediate action needed"
      else "Basic budget allocation provided - AI analysis pending" }

/-- A fallback recommendation, viewed at the dynamic return type of
`getAIBudgetRecommendations` (its string insights and warnings become JSON
strings). -/
def fallbackDyn (r : AIRecommendation) : AIRecommendationDyn :=
  { budgetPlan := r.budgetPlan
    insights := r.insights.map Json.str
    warnings := r.warnings.map Json.str
    summary := r.summary }

/-- The `try` block of `getAIBudgetRecommendations` in
src/app/actions/budget-ai.ts.  The behaviour of the external
text-generation call is a parameter (`callResult`: either a thrown error
message or the returned text), and so is `JSON.parse` (`parse`: either a
thrown syntax-error message or a parsed value). -/
def getAIBudgetRecommendationsBody (callResult : Except String String)
    (parse : String → Except String Json) :
    Except String AIRecommendationDyn :=
  match callResult with
  | .error e => .error e
  | .ok text =>
    let cleanedText := cleanAndValidateJSON text
    match parse cleanedText with
    | .error e => .error e
    | .ok recommendation =>
      if validateAIRecommendation recommendation then
        match coercePlan (arrProp recommendation "budgetPlan") with
        | .error e => .error e
        | .ok plan =>
          .ok { budgetPlan := plan
                insights := arrProp recommendation "insights"
                warnings := arrProp recommendation "warnings"
                summary := strProp recommendation "summary" }
      else
        .error "Invalid recommendation structure"

/-- `getAIBudgetRecommendations`: the `try` block, with the `catch` block
routing any failure message to `createFallbackRecommendation`. -/
def getAIBudgetRecommendations (budgetData : BudgetData)
    (callResult : Except String String)
    (parse : String → Except String Json) : AIRecommendationDyn :=
  match getAIBudgetRecommendationsBody callResult parse with
  | .ok r => r
  | .error e => fallbackDyn (createFallbackRecommendation budgetData (some e))

/-- The JSON value a returned plan entry denotes. -/
def PlanEntry.toJson (p : PlanEntry) : Json :=
  .obj [("category", .str p.category), ("amount", .num p.amount),
        ("percent", .num p.percent), ("reasoning", .str p.reasoning)]

/-- The JSON value a returned recommendation denotes. -/
def AIRecommendationDyn.toJson (r : AIRecommendationDyn) : Json :=
  .obj [("budgetPlan", .arr (r.budgetPlan.map PlanEntry.toJson)),
        ("insights", .arr r.insights),
        ("warnings", .arr r.warnings),
        ("summary", .str r.summary)]

/-- The remaining income as `createFallbackRecommendation` recomputes it. -/
def fallbackRemaining (budgetData : BudgetData) : ℚ :=
  budgetData.income -
    budgetData.fixedExpenses.foldl (fun sum expense => sum + expense.amount) 0

/-- The first warning of the fallback: the captured error message, or the
generic unavailability string when the message is absent or empty. -/
def fallbackErrMsg (error : Option String) : String :=
  match error with
  | some e => if e = "" then "AI service temporarily unavailable" else e
  | none => "AI service temporarily unavailable"

end BudgetOpt

namespace BudgetOpt

/-- C4: the synthesized fallback recommendation has the stated shape: a
two-entry 20/80 plan (percent relative to income) when the recomputed
remaining income is positive and an empty plan otherwise; warnings made of
the captured (or generic) error message plus the insufficiency warning
exactly when the remaining income is negative; and one of two fixed
summaries keyed on the sign of the remaining income. -/
theorem fallback_recommendation_shape (budgetData : BudgetData)
    (error : Option String) :
    (∀ (callResult : Except String String)
       (parse : String → Except String Json) (e : String),
      getAIBudgetRecommendationsBody callResult parse = Except.error e →
      getAIBudgetRecommendations budgetData callResult parse =
        fallbackDyn (createFallbackRecommendation budgetData (some e))) ∧
    (0 < fallbackRemaining budgetData →
      (createFallbackRecommendation budgetData error).budgetPlan =
        [⟨"Emergency Savings", fallbackRemaining budgetData * 0.2,
          fallbackRemaining budgetData * 0.2 / budgetData.income * 100,
          "Build emergency fund first"⟩,
         ⟨"Discretionary", fallbackRemaining budgetData * 0.8,
          fallbackRemaining budgetData * 0.8 / budgetData.income * 100,
          "Flexible spending allocation"⟩]) ∧
    (fallbackRemaining budgetData ≤ 0 →
      (createFallbackRecommendation budgetData error).budgetPlan = []) ∧
    (createFallbackRecommendation budgetData error).warnings =
      fallbackErrMsg error ::
        (if fallbackRemaining budgetData < 0
         then ["Income insufficient to cover fixed expenses"] else []) ∧
    (createFallbackRecommendation budgetData error).summary =
      (if fallbackRemaining budgetData < 0
       then "Budget shows deficit - immediate action needed"
       else "Basic budget allocation provided - AI analysis pending") := by
  refine ⟨?_, ?_, ?_, ?_, ?_⟩
  · intro callResult parse e he
    simp [getAIBudgetRecommendations, he]
  · intro h
    simp only [createFallbackRecommendation, fallbackRemaining] at *
    rw [if_pos h]
  · intro h
    simp only [createFallbackRecommendation, fallbackRemaining] at *
    rw [if_neg (by linarith : ¬ (budgetData.income -
      budgetData.fixedExpenses.foldl (fun sum expense => sum + expense.amount) 0 > 0))]
  · simp only [createFallbackRecommendation, fallbackRemaining, fallbackErrMsg]
    cases error <;> simp
  · rfl

/-- Concrete input for the C4 witness. -/
def bdShape : BudgetData := ⟨1000, [⟨"Rent", 400⟩], [], none, none⟩

/-- Witness for C4 at a concrete positive-remaining input with no captured
error message. -/
theorem fallback_recommendation_shape_witness :
    0 < fallbackRemaining bdShape ∧
    (createFallbackRecommendation bdShape none).budgetPlan =
      [⟨"Emergency Savings", fallbackRemaining bdShape * 0.2,
        fallbackRemaining bdShape * 0.2 / bdShape.income * 100,
        "Build emergency fund first"⟩,
       ⟨"Discretionary", fallbackRemaining bdShape * 0.8,
        fallbackRemaining bdShape * 0.8 / bdShape.income * 100,
        "Flexible spending allocation"⟩] ∧
    (createFallbackRecommendation bdShape none).warnings =
      ["AI service temporarily unavailable"] ∧
    (createFallbackRecommendation bdShape none).summary =
      "Basic budget allocation provided - AI analysis pending" := by
  have h := fallback_recommendation_shape bdShape none
  have hpos : 0 < fallbackRemaining bdShape := by
    norm_num [fallbackRemaining, bdShape]
  have hneg : ¬ (fallbackRemaining bdShape < 0) := by
    norm_num [fallbackRemaining, bdShape]
  refine ⟨hpos, h.2.1 hpos, ?_, ?_⟩
  · rw [h.2.2.2.1, if_neg hneg]
    rfl
  · rw [h.2.2.2.2, if_neg hneg]

lemma valid_toJson (r : AIRecommendationDyn) :
    validateAIRecommendation r.toJson = true := rfl

/-- C5: the recommendation service never fails outward.  For every input
and every behaviour of the external call and of JSON parsing, the returned
value satisfies the structural validator (its budgetPlan, insights and
warnings denote arrays and its summary a string); in particular the
fallback synthesizer yields such a structure for every input, including
negative remaining income. -/
theorem recommendation_service_total (budgetData : BudgetData)
    (callResult : Except String String)
    (parse : String → Except String Json) :
    validateAIRecommendation
        (getAIBudgetRecommendations budgetData callResult parse).toJson = true ∧
    ∀ error : Option String,
      validateAIRecommendation
        (fallbackDyn (createFallbackRecommendation budgetData error)).toJson
          = true :=
  ⟨valid_toJson _, fun _ => valid_toJson _⟩

lemma isArrayProp_iff (o : Option Json) :
    isArrayProp o = true ↔ ∃ xs, o = some (Json.arr xs) := by
  cases o with
  | none => simp [isArrayProp]
  | some v => cases v <;> simp [isArrayProp]

lemma isStringProp_iff (o : Option Json) :
    isStringProp o = true ↔ ∃ s, o = some (Json.str s) := by
  cases o with
  | none => simp [isStringProp]
  | some v => cases v <;> simp [isStringProp]

/-- C9: structural validation is shallow: `validateAIRecommendation`
accepts exactly the objects whose `budgetPlan`, `insights` and `warnings`
fields are arrays and whose `summary` field is a string, with no
constraint on array elements; and on the success path (whenever the body
actually returns a result) the parsed `insights` and `warnings` arrays are
returned exactly as parsed, `summary` as validated, and only the
`budgetPlan` entries are coerced (a coercion that aborts to the fallback
on a `null` entry, so success also certifies the coercion). -/
theorem validate_shallow_and_passthrough :
    (∀ j : Json, validateAIRecommendation j = true ↔
      ∃ fields, j = Json.obj fields ∧
        (∃ xs, fields.lookup "budgetPlan" = some (Json.arr xs)) ∧
        (∃ xs, fields.lookup "insights" = some (Json.arr xs)) ∧
        (∃ xs, fields.lookup "warnings" = some (Json.arr xs)) ∧
        (∃ s, fields.lookup "summary" = some (Json.str s))) ∧
    (∀ (text : String) (parse : String → Except String Json) (j : Json)
       (r : AIRecommendationDyn),
      parse (cleanAndValidateJSON text) = Except.ok j →
      getAIBudgetRecommendationsBody (Except.ok text) parse = Except.ok r →
      r.insights = arrProp j "insights" ∧
      r.warnings = arrProp j "warnings" ∧
      r.summary = strProp j "summary" ∧
      coercePlan (arrProp j "budgetPlan") = Except.ok r.budgetPlan) := by
  constructor
  · intro j
    cases j with
    | null => simp [validateAIRecommendation, truthy]
    | bool b => simp [validateAIRecommendation, typeofObject]
    | num q => simp [validateAIRecommendation, typeofObject]
    | str s => simp [validateAIRecommendation, typeofObject]
    | arr xs => simp [validateAIRecommendation, getField, isArrayProp]
    | obj fields =>
      simp only [validateAIRecommendation, truthy, typeofObject, getField,
        Bool.and_true, Bool.true_and, Bool.and_eq_true,
        isArrayProp_iff, isStringProp_iff, Json.obj.injEq]
      constructor
      · rintro ⟨⟨⟨h1, h2⟩, h3⟩, h4⟩
        exact ⟨fields, rfl, h1, h2, h3, h4⟩
      · rintro ⟨fs, hfs, h1, h2, h3, h4⟩
        cases hfs
        exact ⟨⟨⟨h1, h2⟩, h3⟩, h4⟩
  · intro text parse j r hp hb
    simp only [getAIBudgetRecommendationsBody, hp] at hb
    by_cases hv : validateAIRecommendation j = true
    · rw [if_pos hv] at hb
      cases hcp : coercePlan (arrProp j "budgetPlan") with
      | error e =>
        rw [hcp] at hb
        exact absurd hb (by simp)
      | ok plan =>
        rw [hcp] at hb
        injection hb with hb
        subst hb
        exact ⟨rfl, rfl, rfl, rfl⟩
    · rw [if_neg hv] at hb
      exact absurd hb (by simp)

/-- Parsed JSON value for the C9 witness; its `insights` array deliberately
holds a non-string element. -/
def sampleParsed : Json :=
  .obj [("budgetPlan", .arr []), ("insights", .arr [.num 5]),
        ("warnings", .arr []), ("summary", .str "ok")]

/-- Parse behaviour for the C9 witness. -/
def sampleParse : String → Except String Json := fun _ => .ok sampleParsed

/-- Model output text for the C9 witness. -/
def sampleText : String := "\x7b\x7d"

/-- Witness for C9: a concrete parse whose body succeeds; the non-string
insight element is passed through unchanged. -/
theorem validate_shallow_and_passthrough_witness :
    (sampleParse (cleanAndValidateJSON sampleText) = Except.ok sampleParsed ∧
     getAIBudgetRecommendationsBody (Except.ok sampleText) sampleParse =
       Except.ok ⟨[], [Json.num 5], [], "ok"⟩) ∧
    ([Json.num 5] = arrProp sampleParsed "insights" ∧
     ([] : List Json) = arrProp sampleParsed "warnings" ∧
     "ok" = strProp sampleParsed "summary" ∧
     coercePlan (arrProp sampleParsed "budgetPlan") = Except.ok []) :=
  ⟨⟨rfl, rfl⟩,
   validate_shallow_and_passthrough.2 sampleText sampleParse sampleParsed
     ⟨[], [Json.num 5], [], "ok"⟩ rfl rfl⟩

lemma foldl_add_amount : ∀ (l : List ExpenseItem) (a : ℚ),
    l.foldl (fun sum expense => sum + expense.amount) a
      = a + (l.map ExpenseItem.amount).sum
  | [], a => by simp
  | e :: l, a => by
    rw [List.foldl_cons, foldl_add_amount l, List.map_cons, List.sum_cons]
    ring

/-- C10: the fallback recommendation depends only on the income, the
expense amounts and the error string: it recomputes the remaining income
instead of reading the caller-supplied `remainingIncome` field, and it
ignores the goals, the expense categories and the `totalFixedExpenses`
field. -/
theorem fallback_independent (bd1 bd2 : BudgetData) (error : Option String)
    (hinc : bd1.income = bd2.income)
    (hexp : bd1.fixedExpenses.map ExpenseItem.amount
          = bd2.fixedExpenses.map ExpenseItem.amount) :
    createFallbackRecommendation bd1 error
      = createFallbackRecommendation bd2 error := by
  have hfold : bd1.fixedExpenses.foldl (fun sum expense => sum + expense.amount) 0
      = bd2.fixedExpenses.foldl (fun sum expense => sum + expense.amount) 0 := by
    rw [foldl_add_amount, foldl_add_amount, hexp]
  simp only [createFallbackRecommendation]
  rw [hfold, hinc]

/-- First concrete input for the C10 witness. -/
def bdIndep1 : BudgetData :=
  ⟨1000, [⟨"Rent", 300⟩], [⟨"Savings", 10⟩], some 5, none⟩

/-- Second concrete input for the C10 witness: same income and expense
amounts, different categories, goals and optional fields. -/
def bdIndep2 : BudgetData :=
  ⟨1000, [⟨"Housing", 300⟩], [], none, some 999⟩

/-- Witness for C10 at two concrete inputs differing only in ignored
fields. -/
theorem fallback_independent_witness :
    (bdIndep1.income = bdIndep2.income ∧
     bdIndep1.fixedExpenses.map ExpenseItem.amount
       = bdIndep2.fixedExpenses.map ExpenseItem.amount) ∧
    createFallbackRecommendation bdIndep1 (some "boom")
      = createFallbackRecommendation bdIndep2 (some "boom") :=
  ⟨⟨rfl, rfl⟩, fallback_independent bdIndep1 bdIndep2 (some "boom") rfl rfl⟩

end BudgetOpt

namespace BudgetOpt

/-- A parsed object that passes structural validation although its
`budgetPlan` array holds a `null` entry. -/
def nullPlanParsed : Json :=
  .obj [("budgetPlan", .arr [.null]), ("insights", .arr []),
        ("warnings", .arr []), ("summary", .str "ok")]

/-- Parse behaviour returning `nullPlanParsed`. -/
def nullPlanParse : String → Except String Json := fun _ => .ok nullPlanParsed

/-- Model output text for the null-entry scenario. -/
def nullPlanText : String := "\x7b\x7d"

/-- Validation admits the null plan entry, yet the body does not succeed on
it: the first property read of the entry throws, so the success path is
not taken. -/
lemma null_plan_item_errors :
    validateAIRecommendation nullPlanParsed = true ∧
    getAIBudgetRecommendationsBody (Except.ok nullPlanText) nullPlanParse =
      Except.error "Cannot read properties of null (reading category)" :=
  ⟨rfl, rfl⟩

/-- The thrown TypeError is routed to the fallback synthesizer by the
outer catch, for every budget input. -/
lemma null_plan_item_falls_back (budgetData : BudgetData) :
    getAIBudgetRecommendations budgetData (Except.ok nullPlanText) nullPlanParse
      = fallbackDyn (createFallbackRecommendation budgetData
          (some "Cannot read properties of null (reading category)")) := rfl

end BudgetOpt
